import Mathlib

/-!
# ask-me-anything-backend: the subscription registry, the notifier and the handlers

A shallow embedding of `internal/api/api.go` and `internal/api/handlers.go`.

* A Go `map[K]V` is an association list `List (K × V)`; `mapLookup`, `mapSet` and
  `mapDelete` are `m[k]`, `m[k] = v` and `delete(m, k)`.  The order of the list stands
  for the order in which `range` happens to visit the map; every theorem is stated for
  every list, hence for every visiting order.
* Everything a function does to the outside world (mutex, websocket writes, Store calls,
  HTTP responses, spawned goroutines) is recorded in a trace of `Effect`s.
* The results of the outside world (Store results, websocket write failures, the
  upgrade) are inputs of the functions.
* `slog` calls other than the one in `notifyClients` are left out: they have no effect
  on the registry, the Store or the response.
-/

namespace Api

/-! ## Go maps -/

/-- Go `v, ok := m[k]`: the value stored under `k`, `none` when `ok` is false. -/
def mapLookup {K V : Type} [DecidableEq K] (k : K) : List (K × V) → Option V
  | [] => none
  | (k', v') :: m => if k' = k then some v' else mapLookup k m

/-- Go `m[k] = v`: overwrite the entry of `k`, or add one. -/
def mapSet {K V : Type} [DecidableEq K] (k : K) (v : V) : List (K × V) → List (K × V)
  | [] => [(k, v)]
  | (k', v') :: m => if k' = k then (k, v) :: m else (k', v') :: mapSet k v m

/-- Go `delete(m, k)`: a no-op when `k` is absent (also on a nil map). -/
def mapDelete {K V : Type} [DecidableEq K] (k : K) (m : List (K × V)) : List (K × V) :=
  m.filter (fun p => decide (p.1 ≠ k))

/-- The keys of a map, in visiting order. -/
def mapKeys {K V : Type} (m : List (K × V)) : List K := m.map Prod.fst

/-! ## UUIDs (github.com/google/uuid) -/

/-- A UUID: sixteen bytes. -/
abbrev UUID := List Nat

/-- The zero UUID `uuid.Nil`, also the zero value of a `uuid.UUID` variable. -/
def uuidNil : UUID := List.replicate 16 0

/-- Value of one hexadecimal digit, either case. -/
def xvalue (c : Char) : Option Nat :=
  if '0'.toNat ≤ c.toNat ∧ c.toNat ≤ '9'.toNat then some (c.toNat - '0'.toNat)
  else if 'a'.toNat ≤ c.toNat ∧ c.toNat ≤ 'f'.toNat then some (c.toNat - 'a'.toNat + 10)
  else if 'A'.toNat ≤ c.toNat ∧ c.toNat ≤ 'F'.toNat then some (c.toNat - 'A'.toNat + 10)
  else none

/-- The library's `xtob`: one byte from two hexadecimal digits. -/
def xtob (x1 x2 : Char) : Option Nat :=
  match xvalue x1, xvalue x2 with
  | some b1, some b2 => some (b1 * 16 + b2)
  | _, _ => none

/-- Decode a run of hexadecimal digit pairs. -/
def hexBytes : List Char → Option (List Nat)
  | [] => some []
  | [_] => none
  | x1 :: x2 :: rest =>
    match xtob x1 x2, hexBytes rest with
    | some b, some bs => some (b :: bs)
    | _, _ => none

/-- The 36 character form `xxxxxxxx-xxxx-xxxx-xxxx-xxxxxxxxxxxx`. -/
def parseDashed (s : List Char) : Option UUID :=
  if s.length = 36 ∧ s.get? 8 = some '-' ∧ s.get? 13 = some '-' ∧ s.get? 18 = some '-'
      ∧ s.get? 23 = some '-' then
    hexBytes ((s.take 8) ++ (s.drop 9).take 4 ++ (s.drop 14).take 4 ++ (s.drop 19).take 4
      ++ (s.drop 24).take 12)
  else none

/-- Model of `uuid.Parse` of github.com/google/uuid, a dependency outside this
repository: it accepts the 36 character form, the same with a `urn:uuid:` prefix (any
case) or wrapped in one character on each side, and 32 bare hexadecimal digits; digits
of either case. Every accepted string is ASCII, so characters stand for bytes. -/
def uuidParse (str : String) : Option UUID :=
  let s := str.toList
  if s.all (fun c => decide (c.toNat < 128)) then
    if s.length = 36 then parseDashed s
    else if s.length = 36 + 9 then
      if (s.take 9).map Char.toLower = "urn:uuid:".toList then parseDashed (s.drop 9) else none
    else if s.length = 36 + 2 then parseDashed ((s.drop 1).take 36)
    else if s.length = 32 then hexBytes s
    else none
  else none

/-- One lower-case hexadecimal digit. -/
def hexDigit (n : Nat) : Char :=
  if n < 10 then Char.ofNat ('0'.toNat + n) else Char.ofNat ('a'.toNat + (n - 10))

/-- Lower-case hexadecimal encoding of a run of bytes. -/
def hexEncode : List Nat → List Char
  | [] => []
  | b :: bs => hexDigit (b / 16) :: hexDigit (b % 16) :: hexEncode bs

/-- Model of `UUID.String`: the lower-case 36 character form. -/
def uuidString (u : UUID) : String :=
  String.mk (hexEncode (u.take 4) ++ '-' :: hexEncode ((u.drop 4).take 2)
    ++ '-' :: hexEncode ((u.drop 6).take 2) ++ '-' :: hexEncode ((u.drop 8).take 2)
    ++ '-' :: hexEncode (u.drop 10))

/-! ## Events (api.go) -/

/-- Constant `MessageKindMessageCreated`. -/
def MessageKindMessageCreated : String := "message_created"

/-- Constant `MessageKindMessageReaction`. -/
def MessageKindMessageReaction : String := "message_reaction"

/-- The `Value` of a `Message`: `MessageMessageCreated` or `MessageMessageReacted`. -/
inductive MessageValue where
  | MessageMessageCreated (ID : String) (Message : String)
  | MessageMessageReacted (ID : String)
  deriving DecidableEq, Repr

/-- Struct `Message`; `RoomID` is the routing key and is not serialized. -/
structure Message where
  Kind : String
  Value : MessageValue
  RoomID : String
  deriving DecidableEq, Repr

/-! ## The registry and the notifier (api.go) -/

/-- Identity of a `*websocket.Conn`. -/
abbrev Conn := Nat

/-- Identity of a `context.CancelFunc`. -/
abbrev CancelFunc := Nat

/-- The listener set of one room: `map[*websocket.Conn]context.CancelFunc`. -/
abbrev ConnMap := List (Conn × CancelFunc)

/-- Field `subscribers`: `map[string]map[*websocket.Conn]context.CancelFunc`. -/
abbrev Subscribers := List (String × ConnMap)

/-- Go maps hold each key once: in the registry and in every listener set. -/
def WellFormed (reg : Subscribers) : Prop :=
  (mapKeys reg).Nodup ∧ ∀ p ∈ reg, (mapKeys p.2).Nodup

/-- Errors of the Store that the handlers tell apart. -/
inductive StoreErr where
  | ErrNoRows
  | other
  deriving DecidableEq, Repr

/-- Calls on the Store (`h.q`). -/
inductive StoreCall where
  | GetRoom (id : UUID)
  | InsertRoom (theme : String)
  | InsertMessage (roomID : UUID) (message : String)
  | ReactToMessage (id : UUID)
  | RemoveReactionFromMessage (id : UUID)
  | MarkMessageAsAwnsered (id : UUID)
  deriving DecidableEq, Repr

/-- What the code does to the outside world. -/
inductive Effect where
  | lock
  | unlock
  | writeJSON (conn : Conn) (msg : Message)
  | slogError
  | cancel (f : CancelFunc)
  | store (call : StoreCall)
  | httpError (text : String) (code : Nat)
  | writeID (id : String)
  | upgrade
  | close (conn : Conn)
  | goNotifyClients (msg : Message)
  deriving DecidableEq, Repr

/-- Body of the `for conn, cancel := range subs` loop of `notifyClients`; `fails conn`
says whether `conn.WriteJSON(msg)` returns an error. -/
def notifyLoop (msg : Message) (fails : Conn → Bool) : ConnMap → List Effect
  | [] => []
  | (conn, cancel) :: rest =>
    if fails conn then
      Effect.writeJSON conn msg :: Effect.slogError :: Effect.cancel cancel
        :: notifyLoop msg fails rest
    else
      Effect.writeJSON conn msg :: notifyLoop msg fails rest

/-- Function `notifyClients`: the registry afterwards and the trace. The deferred
`h.mu.Unlock()` runs at either return. -/
def notifyClients (subscribers : Subscribers) (msg : Message) (fails : Conn → Bool) :
    Subscribers × List Effect :=
  match mapLookup msg.RoomID subscribers with
  | none => (subscribers, [Effect.lock, Effect.unlock])
  | some subs =>
    if subs.length = 0 then (subscribers, [Effect.lock, Effect.unlock])
    else (subscribers, Effect.lock :: notifyLoop msg fails subs ++ [Effect.unlock])

/-- The connections `notifyClients` looks up for a room: the keys of
`subscribers[room]`, none when the room has no entry. -/
def listenersFor (subscribers : Subscribers) (room : String) : List Conn :=
  match mapLookup room subscribers with
  | none => []
  | some subs => mapKeys subs

/-- The connections written to in a trace, in order. -/
def writeAttempts : List Effect → List Conn
  | [] => []
  | Effect.writeJSON conn _ :: t => conn :: writeAttempts t
  | _ :: t => writeAttempts t

/-- The cancel functions invoked in a trace, in order. -/
def cancelCalls : List Effect → List CancelFunc
  | [] => []
  | Effect.cancel f :: t => f :: cancelCalls t
  | _ :: t => cancelCalls t

/-! ## Requests and the Store -/

/-- What a handler reads from the request: the two path parameters and the outcome of
`json.NewDecoder(r.Body).Decode(&body)` (`none` when decoding fails, otherwise the
value of the body's one field, `theme` or `message`, empty when the field is missing). -/
structure Request where
  room_id : String
  message_id : String
  body : Option String
  deriving DecidableEq, Repr

/-- The answers of the Store (package `pgstore`, outside `src/`) to each call: a
parameter of every handler. -/
structure Queries where
  GetRoom : UUID → Except StoreErr Unit
  InsertRoom : String → Except StoreErr UUID
  InsertMessage : UUID → String → Except StoreErr UUID
  ReactToMessage : UUID → Except StoreErr Int
  RemoveReactionFromMessage : UUID → Except StoreErr Int
  MarkMessageAsAwnsered : UUID → Except StoreErr Unit

/-- Constant `http.StatusBadRequest`. -/
def StatusBadRequest : Nat := 400

/-- Constant `http.StatusInternalServerError`. -/
def StatusInternalServerError : Nat := 500

/-- Function `chi.URLParam` on the two parameters the routes declare. -/
def URLParam (r : Request) (param : String) : String :=
  if param = "room_id" then r.room_id
  else if param = "message_id" then r.message_id
  else ""

/-! ## handleSubscribe (handlers.go) -/

/-- The registration step of `handleSubscribe`: create the room's set when the key is
missing, then `h.subscribers[rawRoomId][c] = cancel`. -/
def register (rawRoomId : String) (c : Conn) (cancel : CancelFunc)
    (subscribers : Subscribers) : Subscribers :=
  let subscribers1 :=
    match mapLookup rawRoomId subscribers with
    | none => mapSet rawRoomId ([] : ConnMap) subscribers
    | some _ => subscribers
  match mapLookup rawRoomId subscribers1 with
  | none => subscribers1
  | some subs => mapSet rawRoomId (mapSet c cancel subs) subscribers1

/-- The unregistration step of `handleSubscribe`: `delete(h.subscribers[rawRoomId], c)`.
A missing room key reads as a nil map, on which `delete` does nothing. -/
def unregister (rawRoomId : String) (c : Conn) (subscribers : Subscribers) : Subscribers :=
  match mapLookup rawRoomId subscribers with
  | none => subscribers
  | some subs => mapSet rawRoomId (mapDelete c subs) subscribers

/-- Function `handleSubscribe` up to `<-ctx.Done()`: the registry afterwards, the trace,
and the registered connection when the handler reached the wait. `upgrade` is the
outcome of `h.upgrader.Upgrade`, `cancel` the function `context.WithCancel` returns. -/
def handleSubscribe (q : Queries) (r : Request) (upgrade : Option Conn) (cancel : CancelFunc)
    (subscribers : Subscribers) : Subscribers × List Effect × Option Conn :=
  let rawRoomId := URLParam r "room_id"
  match uuidParse rawRoomId with
  | none => (subscribers, [Effect.httpError "invalid room id" StatusBadRequest], none)
  | some roomId =>
    match q.GetRoom roomId with
    | Except.error StoreErr.ErrNoRows =>
      (subscribers, [Effect.store (StoreCall.GetRoom roomId),
        Effect.httpError "room not found" StatusBadRequest], none)
    | Except.error StoreErr.other =>
      (subscribers, [Effect.store (StoreCall.GetRoom roomId),
        Effect.httpError "something went wrong" StatusInternalServerError], none)
    | Except.ok _ =>
      match upgrade with
      | none =>
        (subscribers, [Effect.store (StoreCall.GetRoom roomId), Effect.upgrade,
          Effect.httpError "failed to upgrade to ws connection" StatusBadRequest], none)
      | some c =>
        (register rawRoomId c cancel subscribers,
          [Effect.store (StoreCall.GetRoom roomId), Effect.upgrade, Effect.lock, Effect.unlock],
          some c)

/-- Function `handleSubscribe` after `<-ctx.Done()`: unregister under the lock, then the
deferred `c.Close()`. -/
def handleSubscribeDone (rawRoomId : String) (c : Conn) (subscribers : Subscribers) :
    Subscribers × List Effect :=
  (unregister rawRoomId c subscribers, [Effect.lock, Effect.unlock, Effect.close c])

/-! ## The write handlers (handlers.go) -/

/-- Function `handleCreateRoom`. -/
def handleCreateRoom (q : Queries) (r : Request) : List Effect :=
  match r.body with
  | none => [Effect.httpError "invalid json" StatusBadRequest]
  | some theme =>
    if theme.length ≤ 0 ∨ theme = "" then [Effect.httpError "invalid json" StatusBadRequest]
    else
      match q.InsertRoom theme with
      | Except.error _ =>
        [Effect.store (StoreCall.InsertRoom theme),
          Effect.httpError "something went wrong" StatusInternalServerError]
      | Except.ok roomId =>
        [Effect.store (StoreCall.InsertRoom theme), Effect.writeID (uuidString roomId)]

/-- Function `handleCreateRoomMessages`. -/
def handleCreateRoomMessages (q : Queries) (r : Request) : List Effect :=
  let rawRoomId := URLParam r "room_id"
  match uuidParse rawRoomId with
  | none => [Effect.httpError "invalid room id" StatusBadRequest]
  | some roomId =>
    match q.GetRoom roomId with
    | Except.error StoreErr.ErrNoRows =>
      [Effect.store (StoreCall.GetRoom roomId),
        Effect.httpError "room not found" StatusBadRequest]
    | Except.error StoreErr.other =>
      [Effect.store (StoreCall.GetRoom roomId),
        Effect.httpError "something went wrong" StatusInternalServerError]
    | Except.ok _ =>
      match r.body with
      | none =>
        [Effect.store (StoreCall.GetRoom roomId),
          Effect.httpError "invalid json" StatusBadRequest]
      | some message =>
        if message.length ≤ 0 ∨ message = "" then
          [Effect.store (StoreCall.GetRoom roomId),
            Effect.httpError "invalid json" StatusBadRequest]
        else
          match q.InsertMessage roomId message with
          | Except.error _ =>
            [Effect.store (StoreCall.GetRoom roomId),
              Effect.store (StoreCall.InsertMessage roomId message),
              Effect.httpError "something went wrong" StatusInternalServerError]
          | Except.ok messageID =>
            [Effect.store (StoreCall.GetRoom roomId),
              Effect.store (StoreCall.InsertMessage roomId message),
              Effect.writeID (uuidString messageID),
              Effect.goNotifyClients
                { Kind := MessageKindMessageCreated
                  RoomID := rawRoomId
                  Value := MessageValue.MessageMessageCreated (uuidString messageID) message }]

/-- Function `handleReactToMessage`. -/
def handleReactToMessage (q : Queries) (r : Request) : List Effect :=
  let roomId := URLParam r "room_id"
  match uuidParse roomId with
  | none => [Effect.httpError "Invalid room id" StatusBadRequest]
  | some rawRoomId =>
    let messageId := URLParam r "message_id"
    match uuidParse messageId with
    | none => [Effect.httpError "Invalid message id" StatusBadRequest]
    | some rawMessageId =>
      match q.ReactToMessage rawMessageId with
      | Except.error _ =>
        [Effect.store (StoreCall.ReactToMessage rawMessageId),
          Effect.httpError "Something went wrong" StatusInternalServerError]
      | Except.ok _ =>
        [Effect.store (StoreCall.ReactToMessage rawMessageId),
          Effect.goNotifyClients
            { Kind := MessageKindMessageReaction
              RoomID := uuidString rawRoomId
              Value := MessageValue.MessageMessageReacted (uuidString rawMessageId) }]

/-- Function `getIdParam`. -/
def getIdParam (param : String) (r : Request) : Except String UUID :=
  let rawParam := URLParam r param
  match uuidParse rawParam with
  | none => Except.error ("invalid param " ++ param)
  | some id => Except.ok id

/-- Function `handleRemoveMessageReaction`. -/
def handleRemoveMessageReaction (q : Queries) (r : Request) : List Effect :=
  let roomId := URLParam r "room_id"
  match uuidParse roomId with
  | none => [Effect.httpError "Invalid room id" StatusBadRequest]
  | some rawRoomId =>
    let messageId := URLParam r "message_id"
    match uuidParse messageId with
    | none => [Effect.httpError "Invalid message id" StatusBadRequest]
    | some rawMessageId =>
      match q.RemoveReactionFromMessage rawMessageId with
      | Except.error _ =>
        [Effect.store (StoreCall.RemoveReactionFromMessage rawMessageId),
          Effect.httpError "Something went wrong" StatusInternalServerError]
      | Except.ok _ =>
        [Effect.store (StoreCall.RemoveReactionFromMessage rawMessageId),
          Effect.goNotifyClients
            { Kind := MessageKindMessageReaction
              RoomID := uuidString rawRoomId
              Value := MessageValue.MessageMessageReacted (uuidString rawMessageId) }]

/-- Function `handleMarkMessageAsAnswered`. Each `if x, err := h.getIdParam(..); err != nil`
declares a new `x` whose scope is that `if` statement, so the parsed identifier is dropped
at its end and the outer `rawRoomId` and `messageId` keep their zero value. The result of
`h.q.MarkMessageAsAwnsered` is discarded. -/
def handleMarkMessageAsAnswered (_q : Queries) (r : Request) : List Effect :=
  let rawRoomId : UUID := uuidNil
  match getIdParam "room_id" r with
  | Except.error _ => [Effect.httpError "Invalid room id" StatusBadRequest]
  | Except.ok _ =>
    let messageId : UUID := uuidNil
    match getIdParam "message_id" r with
    | Except.error _ => [Effect.httpError "Invalid message id" StatusBadRequest]
    | Except.ok _ =>
      [Effect.store (StoreCall.MarkMessageAsAwnsered messageId),
        Effect.goNotifyClients
          { Kind := MessageKindMessageReaction
            RoomID := uuidString rawRoomId
            Value := MessageValue.MessageMessageReacted (uuidString messageId) }]

/-! ## Reading traces -/

/-- The Store calls of a trace, in order. -/
def storeCalls : List Effect → List StoreCall
  | [] => []
  | Effect.store call :: t => call :: storeCalls t
  | _ :: t => storeCalls t

/-- The events handed to `go h.notifyClients(..)` in a trace, in order. -/
def published : List Effect → List Message
  | [] => []
  | Effect.goNotifyClients msg :: t => msg :: published t
  | _ :: t => published t

/-- The `http.Error` responses of a trace, in order. -/
def httpErrors : List Effect → List (String × Nat)
  | [] => []
  | Effect.httpError text code :: t => (text, code) :: httpErrors t
  | _ :: t => httpErrors t

/-- Whether a Store call reads only (`GetRoom`); the others write. -/
def StoreCall.isRead : StoreCall → Bool
  | StoreCall.GetRoom _ => true
  | _ => false

/-- The cancel function registered for connection `c` under room `room`, if any. -/
def listenerCancel (subscribers : Subscribers) (room : String) (c : Conn) : Option CancelFunc :=
  (mapLookup room subscribers).bind (mapLookup c)

/-- The listener set `notifyClients` ranges over: `subscribers[room]`, empty when the
key is missing. -/
def listenerSet (subscribers : Subscribers) (room : String) : ConnMap :=
  (mapLookup room subscribers).getD []

/-- A registry for examples: rooms `"A"` (connections 1 and 2) and `"B"` (connection 3). -/
def sampleRegistry : Subscribers := [("A", [(1, 11), (2, 12)]), ("B", [(3, 13)])]

/-- A reaction event for room `"A"`. -/
def sampleEvent : Message :=
  { Kind := MessageKindMessageReaction
    RoomID := "A"
    Value := MessageValue.MessageMessageReacted "m" }

/-- For each `WriteJSON` of a trace, in order, whether the mutex is held when it
happens; `held` says whether the mutex is held before the trace. -/
def lockAtWrites (held : Bool) : List Effect → List Bool
  | [] => []
  | Effect.lock :: t => lockAtWrites true t
  | Effect.unlock :: t => lockAtWrites false t
  | Effect.writeJSON _ _ :: t => held :: lockAtWrites held t
  | _ :: t => lockAtWrites held t

/-! ## Interleavings

The mutex makes `notifyClients`, the registration of `handleSubscribe` and its
unregistration atomic with respect to each other; a run of the server is a sequence of
these three steps in the order in which they obtain the mutex. -/

/-- One step of the server on the registry. -/
inductive Step where
  | publish (msg : Message) (fails : Conn → Bool)
  | subscribe (q : Queries) (r : Request) (upgrade : Option Conn) (cancel : CancelFunc)
  | done (rawRoomId : String) (c : Conn)

/-- The registry after a step, and the step's trace. -/
def step (subscribers : Subscribers) : Step → Subscribers × List Effect
  | Step.publish msg fails => notifyClients subscribers msg fails
  | Step.subscribe q r upgrade cancel =>
    ((handleSubscribe q r upgrade cancel subscribers).1,
      (handleSubscribe q r upgrade cancel subscribers).2.1)
  | Step.done rawRoomId c => handleSubscribeDone rawRoomId c subscribers

/-- The registry after a sequence of steps, and the whole trace. -/
def run (subscribers : Subscribers) : List Step → Subscribers × List Effect
  | [] => (subscribers, [])
  | s :: rest =>
    ((run (step subscribers s).1 rest).1, (step subscribers s).2 ++ (run (step subscribers s).1 rest).2)

/-- Whether a step is a subscription whose upgrade yields connection `c`. -/
def Step.upgradesTo (c : Conn) : Step → Bool
  | Step.subscribe _ _ upgrade _ => decide (upgrade = some c)
  | _ => false

/-- A Store in which every room exists and every write succeeds. -/
def okStore : Queries :=
  { GetRoom := fun _ => Except.ok ()
    InsertRoom := fun _ => Except.ok uuidNil
    InsertMessage := fun _ _ => Except.ok uuidNil
    ReactToMessage := fun _ => Except.ok 1
    RemoveReactionFromMessage := fun _ => Except.ok 1
    MarkMessageAsAwnsered := fun _ => Except.ok () }

/-- A room identifier in canonical form. -/
def roomA : String := "6ba7b810-9dad-11d1-80b4-00c04fd430c8"

/-- A request on room `roomA` and message `6ba7b811-...`, with body field `"hello"`. -/
def sampleRequest : Request :=
  { room_id := roomA
    message_id := "6ba7b811-9dad-11d1-80b4-00c04fd430c8"
    body := some "hello" }

/-- A reaction event routed to `roomA`. -/
def roomAEvent : Message :=
  { Kind := MessageKindMessageReaction
    RoomID := roomA
    Value := MessageValue.MessageMessageReacted "6ba7b811-9dad-11d1-80b4-00c04fd430c8" }

/-- The same room identifier as `roomA`, spelled in upper case. -/
def roomAUpper : String := "6BA7B810-9DAD-11D1-80B4-00C04FD430C8"

/-- The bytes both spellings of the room identifier parse to. -/
def roomABytes : UUID :=
  [107, 167, 184, 16, 157, 173, 17, 209, 128, 180, 0, 192, 79, 212, 48, 200]

/-- The bytes the message identifier of `sampleRequest` parses to. -/
def messageBytes : UUID :=
  [107, 167, 184, 17, 157, 173, 17, 209, 128, 180, 0, 192, 79, 212, 48, 200]

/-- A Store in which no room exists: `GetRoom` reports `pgx.ErrNoRows`. -/
def noRoomStore : Queries :=
  { okStore with GetRoom := fun _ => Except.error StoreErr.ErrNoRows }

/-- A Store in which every room exists and every write fails. -/
def failingStore : Queries :=
  { GetRoom := fun _ => Except.ok ()
    InsertRoom := fun _ => Except.error StoreErr.other
    InsertMessage := fun _ _ => Except.error StoreErr.other
    ReactToMessage := fun _ => Except.error StoreErr.other
    RemoveReactionFromMessage := fun _ => Except.error StoreErr.other
    MarkMessageAsAwnsered := fun _ => Except.error StoreErr.other }

/-- The five handlers that write to the Store. -/
inductive WriteHandler where
  | createRoom
  | createRoomMessages
  | reactToMessage
  | removeMessageReaction
  | markMessageAsAnswered
  deriving DecidableEq, Repr

/-- The trace of a write handler on a request. -/
def WriteHandler.trace : WriteHandler → Queries → Request → List Effect
  | WriteHandler.createRoom => handleCreateRoom
  | WriteHandler.createRoomMessages => handleCreateRoomMessages
  | WriteHandler.reactToMessage => handleReactToMessage
  | WriteHandler.removeMessageReaction => handleRemoveMessageReaction
  | WriteHandler.markMessageAsAnswered => handleMarkMessageAsAnswered

/-- The invalid write requests of the specification's `ValidationError`: a malformed
identifier among those the handler reads, or an empty required text field (`theme` for
`handleCreateRoom`, `message` for `handleCreateRoomMessages`). -/
def WriteHandler.invalidRequest : WriteHandler → Request → Bool
  | WriteHandler.createRoom, r => decide (r.body = some "")
  | WriteHandler.createRoomMessages, r =>
    decide (uuidParse r.room_id = none) || decide (r.body = some "")
  | _, r => decide (uuidParse r.room_id = none) || decide (uuidParse r.message_id = none)

/-- A create-message request on `roomA` whose `message` field is empty. -/
def emptyMessageRequest : Request :=
  { room_id := roomA
    message_id := ""
    body := some "" }

/-- The request `sampleRequest` with the room identifier spelled in upper case. -/
def upperRequest : Request :=
  { room_id := roomAUpper
    message_id := "6ba7b811-9dad-11d1-80b4-00c04fd430c8"
    body := some "hello" }

/-- The text `UUID.String` gives for the zero UUID. -/
def zeroText : String := "00000000-0000-0000-0000-000000000000"

/-! ## Lemmas on maps -/

theorem mapLookup_mapSet {K V : Type} [DecidableEq K] (k k' : K) (v : V) (m : List (K × V)) :
    mapLookup k' (mapSet k v m) = if k' = k then some v else mapLookup k' m := by
  induction m with
  | nil =>
    by_cases h : k = k'
    · subst h; simp [mapSet, mapLookup]
    · have h' : ¬ k' = k := fun e => h e.symm
      simp [mapSet, mapLookup, h, h']
  | cons p m ih =>
    obtain ⟨a, b⟩ := p
    by_cases hak : a = k
    · subst hak
      by_cases hk : a = k'
      · subst hk; simp [mapSet, mapLookup]
      · have hk' : ¬ k' = a := fun e => hk e.symm
        simp [mapSet, mapLookup, hk, hk']
    · by_cases hk : a = k'
      · subst hk
        simp [mapSet, mapLookup, hak]
      · simp [mapSet, mapLookup, hak, hk, ih]

theorem mapLookup_mapDelete {K V : Type} [DecidableEq K] (k k' : K) (m : List (K × V)) :
    mapLookup k' (mapDelete k m) = if k' = k then none else mapLookup k' m := by
  induction m with
  | nil => simp [mapDelete, mapLookup]
  | cons p m ih =>
    obtain ⟨a, b⟩ := p
    have ih2 := ih
    simp only [mapDelete] at ih2
    by_cases hak : a = k
    · subst hak
      by_cases hk : a = k'
      · subst hk
        simpa [mapDelete, mapLookup, List.filter_cons] using ih2
      · have hk' : ¬ k' = a := fun e => hk e.symm
        simpa [mapDelete, mapLookup, List.filter_cons, hk, hk'] using ih2
    · by_cases hk : a = k'
      · subst hk
        simp [mapDelete, mapLookup, List.filter_cons, hak]
      · simpa [mapDelete, mapLookup, List.filter_cons, hak, hk] using ih2

theorem mapLookup_eq_none_iff {K V : Type} [DecidableEq K] (k : K) (m : List (K × V)) :
    mapLookup k m = none ↔ k ∉ mapKeys m := by
  induction m with
  | nil => simp [mapLookup, mapKeys]
  | cons p m ih =>
    obtain ⟨a, b⟩ := p
    by_cases hak : a = k
    · subst hak; simp [mapLookup, mapKeys]
    · have hka : ¬ k = a := fun e => hak e.symm
      simp only [mapKeys] at ih
      simp [mapLookup, mapKeys, hak, hka, ih]

theorem mapDelete_of_lookup_none {K V : Type} [DecidableEq K] (k : K) (m : List (K × V))
    (h : mapLookup k m = none) : mapDelete k m = m := by
  rw [mapLookup_eq_none_iff] at h
  unfold mapDelete
  rw [List.filter_eq_self]
  intro p hp
  have : p.1 ∈ mapKeys m := List.mem_map_of_mem Prod.fst hp
  simp only [decide_eq_true_eq]
  intro e
  exact h (e ▸ this)

theorem mapSet_of_lookup {K V : Type} [DecidableEq K] (k : K) (v : V) (m : List (K × V))
    (h : mapLookup k m = some v) : mapSet k v m = m := by
  induction m with
  | nil => simp [mapLookup] at h
  | cons p m ih =>
    obtain ⟨a, b⟩ := p
    by_cases hak : a = k
    · subst hak
      simp [mapLookup] at h
      simp [mapSet, h]
    · simp [mapLookup, hak] at h
      simp [mapSet, hak, ih h]

theorem mapLookup_mem {K V : Type} [DecidableEq K] (k : K) (v : V) (m : List (K × V))
    (h : mapLookup k m = some v) : (k, v) ∈ m := by
  induction m with
  | nil => simp [mapLookup] at h
  | cons p m ih =>
    obtain ⟨a, b⟩ := p
    by_cases hak : a = k
    · subst hak
      simp [mapLookup] at h
      simp [h]
    · simp [mapLookup, hak] at h
      exact List.mem_cons_of_mem _ (ih h)

theorem mapDelete_idem {K V : Type} [DecidableEq K] (k : K) (m : List (K × V)) :
    mapDelete k (mapDelete k m) = mapDelete k m := by
  simp [mapDelete, List.filter_filter]

theorem mapKeys_mapDelete_sublist {K V : Type} [DecidableEq K] (k : K) (m : List (K × V)) :
    (mapKeys (mapDelete k m)).Sublist (mapKeys m) := by
  unfold mapKeys mapDelete
  exact List.Sublist.map _ (List.filter_sublist m)

theorem mem_mapKeys_mapSet {K V : Type} [DecidableEq K] (k x : K) (v : V) (m : List (K × V)) :
    x ∈ mapKeys (mapSet k v m) ↔ x = k ∨ x ∈ mapKeys m := by
  induction m with
  | nil => simp [mapSet, mapKeys]
  | cons p m ih =>
    obtain ⟨a, b⟩ := p
    simp only [mapKeys] at ih
    by_cases hak : a = k
    · subst hak; simp [mapSet, mapKeys]
    · simp [mapSet, mapKeys, hak, ih]
      tauto

theorem nodup_mapKeys_mapSet {K V : Type} [DecidableEq K] (k : K) (v : V) (m : List (K × V))
    (h : (mapKeys m).Nodup) : (mapKeys (mapSet k v m)).Nodup := by
  induction m with
  | nil => simp [mapSet, mapKeys]
  | cons p m ih =>
    obtain ⟨a, b⟩ := p
    have h' : a ∉ mapKeys m ∧ (mapKeys m).Nodup := by
      simpa [mapKeys] using h
    by_cases hak : a = k
    · subst hak
      simpa [mapSet, mapKeys] using h
    · have hmem : a ∉ mapKeys (mapSet k v m) := by
        rw [mem_mapKeys_mapSet]
        rintro (e | e)
        · exact hak e
        · exact h'.1 e
      have := ih h'.2
      simp only [mapKeys] at this hmem
      simp [mapSet, mapKeys, hak, this, hmem]

/-! ## Lemmas on the notifier -/

theorem writeAttempts_append (t u : List Effect) :
    writeAttempts (t ++ u) = writeAttempts t ++ writeAttempts u := by
  induction t with
  | nil => rfl
  | cons e t ih => cases e <;> simp [writeAttempts, ih]

theorem cancelCalls_append (t u : List Effect) :
    cancelCalls (t ++ u) = cancelCalls t ++ cancelCalls u := by
  induction t with
  | nil => rfl
  | cons e t ih => cases e <;> simp [cancelCalls, ih]

theorem writeAttempts_notifyLoop (msg : Message) (fails : Conn → Bool) (subs : ConnMap) :
    writeAttempts (notifyLoop msg fails subs) = mapKeys subs := by
  induction subs with
  | nil => rfl
  | cons p subs ih =>
    obtain ⟨c, f⟩ := p
    simp only [mapKeys] at ih
    by_cases h : fails c = true
    · simp [notifyLoop, h, writeAttempts, ih, mapKeys]
    · simp [notifyLoop, h, writeAttempts, ih, mapKeys]

theorem cancelCalls_notifyLoop (msg : Message) (fails : Conn → Bool) (subs : ConnMap) :
    cancelCalls (notifyLoop msg fails subs)
      = (subs.filter (fun p => fails p.1)).map Prod.snd := by
  induction subs with
  | nil => rfl
  | cons p subs ih =>
    obtain ⟨c, f⟩ := p
    by_cases h : fails c = true
    · simp [notifyLoop, h, cancelCalls, ih]
    · simp [notifyLoop, h, cancelCalls, ih]

theorem mem_writeAttempts (c : Conn) (t : List Effect) :
    c ∈ writeAttempts t ↔ ∃ m, Effect.writeJSON c m ∈ t := by
  induction t with
  | nil => simp [writeAttempts]
  | cons e t ih => cases e <;> simp [writeAttempts, ih, exists_or]

theorem mem_cancelCalls (f : CancelFunc) (t : List Effect) :
    f ∈ cancelCalls t ↔ Effect.cancel f ∈ t := by
  induction t with
  | nil => simp [cancelCalls]
  | cons e t ih => cases e <;> simp [cancelCalls, ih]

theorem writeJSON_mem_notifyLoop (msg m : Message) (fails : Conn → Bool) (subs : ConnMap)
    (c : Conn) (h : Effect.writeJSON c m ∈ notifyLoop msg fails subs) : m = msg := by
  induction subs with
  | nil => simp [notifyLoop] at h
  | cons p subs ih =>
    obtain ⟨c', f⟩ := p
    by_cases hf : fails c' = true
    · simp [notifyLoop, hf] at h
      rcases h with h | h
      · exact h.2
      · exact ih h
    · simp [notifyLoop, hf] at h
      rcases h with h | h
      · exact h.2
      · exact ih h

/-- The trace of `notifyClients` in one formula: the loop over the looked-up set between
`Lock` and the deferred `Unlock`. -/
theorem notifyClients_trace (reg : Subscribers) (msg : Message) (fails : Conn → Bool) :
    (notifyClients reg msg fails).2
      = Effect.lock :: notifyLoop msg fails (listenerSet reg msg.RoomID) ++ [Effect.unlock] := by
  unfold notifyClients listenerSet
  cases h : mapLookup msg.RoomID reg with
  | none => simp [notifyLoop]
  | some subs =>
    cases subs with
    | nil => simp [notifyLoop]
    | cons p subs => simp

theorem listenersFor_eq (reg : Subscribers) (room : String) :
    listenersFor reg room = mapKeys (listenerSet reg room) := by
  unfold listenersFor listenerSet
  cases mapLookup room reg <;> simp [mapKeys]

theorem writeAttempts_notifyClients (reg : Subscribers) (msg : Message) (fails : Conn → Bool) :
    writeAttempts (notifyClients reg msg fails).2 = listenersFor reg msg.RoomID := by
  rw [notifyClients_trace, listenersFor_eq]
  simp [writeAttempts, writeAttempts_append, writeAttempts_notifyLoop]

theorem nodup_listenersFor (reg : Subscribers) (room : String) (hwf : WellFormed reg) :
    (listenersFor reg room).Nodup := by
  unfold listenersFor
  cases h : mapLookup room reg with
  | none => simp
  | some subs => exact hwf.2 _ (mapLookup_mem _ _ _ h)

theorem writeJSON_mem_notifyClients (reg : Subscribers) (msg m : Message)
    (fails : Conn → Bool) (c : Conn) (hm : Effect.writeJSON c m ∈ (notifyClients reg msg fails).2) :
    m = msg ∧ c ∈ listenersFor reg msg.RoomID := by
  constructor
  · rw [notifyClients_trace] at hm
    have hm' : Effect.writeJSON c m ∈ notifyLoop msg fails (listenerSet reg msg.RoomID) := by
      simpa using hm
    exact writeJSON_mem_notifyLoop _ _ _ _ _ hm'
  · rw [← writeAttempts_notifyClients reg msg fails, mem_writeAttempts]
    exact ⟨m, hm⟩

theorem getLast_notifyClients (reg : Subscribers) (msg : Message) (fails : Conn → Bool) :
    (notifyClients reg msg fails).2.getLast? = some Effect.unlock := by
  rw [notifyClients_trace, List.getLast?_append]
  simp

theorem lockAtWrites_notifyLoop (msg : Message) (fails : Conn → Bool) (subs : ConnMap)
    (rest : List Effect) :
    lockAtWrites true (notifyLoop msg fails subs ++ rest)
      = List.replicate subs.length true ++ lockAtWrites true rest := by
  induction subs with
  | nil => simp [notifyLoop]
  | cons p subs ih =>
    obtain ⟨c, f⟩ := p
    by_cases h : fails c = true
    · simp [notifyLoop, h, lockAtWrites, ih, List.replicate_succ]
    · simp [notifyLoop, h, lockAtWrites, ih, List.replicate_succ]

/-! ## Lemmas on registering and unregistering -/

theorem listenerCancel_unregister (reg : Subscribers) (R : String) (c : Conn) (R' : String)
    (c' : Conn) :
    listenerCancel (unregister R c reg) R' c'
      = if R' = R ∧ c' = c then none else listenerCancel reg R' c' := by
  unfold unregister listenerCancel
  cases h : mapLookup R reg with
  | none =>
    by_cases hR : R' = R
    · subst hR; simp [h]
    · simp [hR]
  | some subs =>
    simp only [mapLookup_mapSet]
    by_cases hR : R' = R
    · subst hR
      by_cases hc : c' = c
      · subst hc; simp [mapLookup_mapDelete]
      · simp [h, hc, mapLookup_mapDelete]
    · simp [hR]

theorem listenerCancel_register (reg : Subscribers) (R : String) (c : Conn) (f : CancelFunc)
    (R' : String) (c' : Conn) :
    listenerCancel (register R c f reg) R' c'
      = if R' = R ∧ c' = c then some f else listenerCancel reg R' c' := by
  unfold register listenerCancel
  cases h : mapLookup R reg with
  | none =>
    simp only [mapLookup_mapSet, if_true]
    by_cases hR : R' = R
    · subst hR
      by_cases hc : c' = c
      · subst hc; simp [mapLookup_mapSet]
      · simp [h, hc, mapSet, mapLookup, Ne.symm hc]
    · simp [hR]
  | some subs =>
    simp only [h, mapLookup_mapSet]
    by_cases hR : R' = R
    · subst hR
      by_cases hc : c' = c
      · subst hc; simp [mapLookup_mapSet]
      · simp [h, hc, mapLookup_mapSet]
    · simp [hR]

theorem mem_listenersFor_iff (reg : Subscribers) (R : String) (c : Conn) :
    c ∈ listenersFor reg R ↔ listenerCancel reg R c ≠ none := by
  unfold listenersFor listenerCancel
  cases h : mapLookup R reg with
  | none => simp
  | some subs =>
    simp only [Option.bind]
    rw [Ne, mapLookup_eq_none_iff]
    simp

theorem handleSubscribe_registry (q : Queries) (r : Request) (upgrade : Option Conn)
    (cancel : CancelFunc) (reg : Subscribers) :
    (handleSubscribe q r upgrade cancel reg).1 = reg
    ∨ ∃ c, upgrade = some c
        ∧ (handleSubscribe q r upgrade cancel reg).1 = register (URLParam r "room_id") c cancel reg := by
  unfold handleSubscribe
  dsimp only
  split
  · exact Or.inl rfl
  · split
    · exact Or.inl rfl
    · exact Or.inl rfl
    · split
      · exact Or.inl rfl
      · exact Or.inr ⟨_, rfl, rfl⟩

theorem run_keeps_unregistered (R : String) (c : Conn) (steps : List Step) :
    ∀ reg : Subscribers, listenerCancel reg R c = none →
      (∀ s ∈ steps, Step.upgradesTo c s = false) →
      listenerCancel (run reg steps).1 R c = none := by
  induction steps with
  | nil => intro reg h _; simpa [run] using h
  | cons s rest ih =>
    intro reg h hfresh
    have hs : Step.upgradesTo c s = false := hfresh s (List.mem_cons_self _ _)
    have hrest : ∀ t ∈ rest, Step.upgradesTo c t = false :=
      fun t ht => hfresh t (List.mem_cons_of_mem _ ht)
    have hstep : listenerCancel (step reg s).1 R c = none := by
      cases s with
      | publish msg fails =>
        have : (notifyClients reg msg fails).1 = reg := by
          unfold notifyClients
          cases mapLookup msg.RoomID reg with
          | none => rfl
          | some subs => by_cases hl : subs.length = 0 <;> simp [hl]
        simp [step, this, h]
      | subscribe q r upgrade cancel =>
        rcases handleSubscribe_registry q r upgrade cancel reg with he | ⟨c', hc', he⟩
        · simp [step, he, h]
        · have hne : ¬ c = c' := by
            intro e
            subst e
            simp [Step.upgradesTo, hc'] at hs
          simp [step, he, listenerCancel_register, hne, h]
      | done R' c' =>
        simp only [step, handleSubscribeDone, listenerCancel_unregister, h]
        simp
    simpa [run] using ih (step reg s).1 hstep hrest

/-! ## Every reachable registry is well formed -/

theorem mem_mapSet {K V : Type} [DecidableEq K] (k : K) (v : V) (m : List (K × V))
    (p : K × V) (h : p ∈ mapSet k v m) : p = (k, v) ∨ p ∈ m := by
  induction m with
  | nil => simpa [mapSet] using h
  | cons x m ih =>
    obtain ⟨a, b⟩ := x
    by_cases hak : a = k
    · simp only [mapSet, hak, if_true, List.mem_cons] at h
      rcases h with h | h
      · exact Or.inl h
      · exact Or.inr (List.mem_cons_of_mem _ h)
    · simp only [mapSet, hak, if_false, List.mem_cons] at h
      rcases h with h | h
      · exact Or.inr (h ▸ List.mem_cons_self _ _)
      · rcases ih h with h' | h'
        · exact Or.inl h'
        · exact Or.inr (List.mem_cons_of_mem _ h')

theorem wellFormed_mapSet (reg : Subscribers) (R : String) (subs : ConnMap)
    (hwf : WellFormed reg) (hs : (mapKeys subs).Nodup) : WellFormed (mapSet R subs reg) := by
  refine ⟨nodup_mapKeys_mapSet R subs reg hwf.1, ?_⟩
  intro p hp
  rcases mem_mapSet R subs reg p hp with h | h
  · rw [h]; exact hs
  · exact hwf.2 p h

theorem wellFormed_nil : WellFormed [] := by
  simp [WellFormed, mapKeys]

theorem wellFormed_register (reg : Subscribers) (R : String) (c : Conn) (f : CancelFunc)
    (hwf : WellFormed reg) : WellFormed (register R c f reg) := by
  have key : ∀ reg1 : Subscribers, WellFormed reg1 →
      WellFormed (match mapLookup R reg1 with
        | none => reg1
        | some subs => mapSet R (mapSet c f subs) reg1) := by
    intro reg1 h1
    cases hl : mapLookup R reg1 with
    | none => exact h1
    | some subs =>
      exact wellFormed_mapSet reg1 R _ h1
        (nodup_mapKeys_mapSet c f subs (h1.2 _ (mapLookup_mem _ _ _ hl)))
  unfold register
  cases hl : mapLookup R reg with
  | none => exact key _ (wellFormed_mapSet reg R [] hwf (by simp [mapKeys]))
  | some subs => exact key _ hwf

theorem wellFormed_unregister (reg : Subscribers) (R : String) (c : Conn)
    (hwf : WellFormed reg) : WellFormed (unregister R c reg) := by
  unfold unregister
  cases hl : mapLookup R reg with
  | none => exact hwf
  | some subs =>
    exact wellFormed_mapSet reg R _ hwf
      ((hwf.2 _ (mapLookup_mem _ _ _ hl)).sublist (mapKeys_mapDelete_sublist c subs))

theorem notifyClients_registry (reg : Subscribers) (msg : Message) (fails : Conn → Bool) :
    (notifyClients reg msg fails).1 = reg := by
  unfold notifyClients
  cases mapLookup msg.RoomID reg with
  | none => rfl
  | some subs => by_cases hl : subs.length = 0 <;> simp [hl]

theorem wellFormed_step (reg : Subscribers) (s : Step) (hwf : WellFormed reg) :
    WellFormed (step reg s).1 := by
  cases s with
  | publish msg fails => simpa [step, notifyClients_registry] using hwf
  | subscribe q r upgrade cancel =>
    rcases handleSubscribe_registry q r upgrade cancel reg with he | ⟨c, _, he⟩
    · simpa [step, he] using hwf
    · simpa [step, he] using wellFormed_register reg _ c cancel hwf
  | done R c => simpa [step, handleSubscribeDone] using wellFormed_unregister reg R c hwf

/-- Starting from the empty registry of `NewHandler`, every run of the server leaves a
registry that holds each key once. -/
theorem wellFormed_run (steps : List Step) :
    ∀ reg : Subscribers, WellFormed reg → WellFormed (run reg steps).1 := by
  induction steps with
  | nil => intro reg h; simpa [run] using h
  | cons s rest ih =>
    intro reg h
    simpa [run] using ih _ (wellFormed_step reg s h)

theorem sampleRegistry_wellFormed : WellFormed sampleRegistry := by
  unfold WellFormed sampleRegistry mapKeys
  decide

/-! ## The notifier: who is written to, and what else happens -/

/-- C1: for a registry that holds each key once, the write attempts of one call of
`notifyClients` are exactly the listeners of `subscribers[msg.RoomID]`, each attempted
once whatever the write outcomes, every write carries `msg`, a connection that is not a
listener of that room is not written to, and a room without entry or with an empty set
gets no write at all (the trace is only `Lock`, `Unlock`). -/
theorem notifyClients_writes_exactly_room_listeners (reg : Subscribers) (msg : Message)
    (fails : Conn → Bool) (hwf : WellFormed reg) :
    writeAttempts (notifyClients reg msg fails).2 = listenersFor reg msg.RoomID
    ∧ (∀ c, (writeAttempts (notifyClients reg msg fails).2).count c
          = if c ∈ listenersFor reg msg.RoomID then 1 else 0)
    ∧ (∀ c m, Effect.writeJSON c m ∈ (notifyClients reg msg fails).2 →
          m = msg ∧ c ∈ listenersFor reg msg.RoomID)
    ∧ (∀ c, c ∉ listenersFor reg msg.RoomID →
          c ∉ writeAttempts (notifyClients reg msg fails).2)
    ∧ ((mapLookup msg.RoomID reg = none ∨ mapLookup msg.RoomID reg = some []) →
          (notifyClients reg msg fails).2 = [Effect.lock, Effect.unlock]) := by
  have hw := writeAttempts_notifyClients reg msg fails
  have hnd := nodup_listenersFor reg msg.RoomID hwf
  refine ⟨hw, ?_, ?_, ?_, ?_⟩
  · intro c
    rw [hw]
    by_cases hc : c ∈ listenersFor reg msg.RoomID
    · simp [hc, List.count_eq_one_of_mem hnd hc]
    · simp [hc, List.count_eq_zero_of_not_mem hc]
  · intro c m hm
    exact writeJSON_mem_notifyClients reg msg m fails c hm
  · intro c hc
    rw [hw]
    exact hc
  · intro h
    rcases h with h | h
    · simp [notifyClients, h]
    · simp [notifyClients, h]

/-- Witness of C1 on the sample registry, the write to connection 1 failing. -/
theorem notifyClients_writes_exactly_room_listeners_witness :
    WellFormed sampleRegistry
    ∧ writeAttempts (notifyClients sampleRegistry sampleEvent (fun c => decide (c = 1))).2
        = [1, 2]
    ∧ 3 ∉ writeAttempts (notifyClients sampleRegistry sampleEvent (fun c => decide (c = 1))).2 :=
  ⟨sampleRegistry_wellFormed,
    (notifyClients_writes_exactly_room_listeners sampleRegistry sampleEvent
      (fun c => decide (c = 1)) sampleRegistry_wellFormed).1.trans (by decide),
    (notifyClients_writes_exactly_room_listeners sampleRegistry sampleEvent
      (fun c => decide (c = 1)) sampleRegistry_wellFormed).2.2.2.1 3 (by decide)⟩

/-- C2: `notifyClients` returns the registry it was given, and the cancel functions it
invokes are those of the listeners whose write failed, one call per failed write and in
the order of the writes; so a cancel function is invoked if and only if it belongs to a
listener of the room whose write failed. -/
theorem notifyClients_keeps_registry_cancels_failed (reg : Subscribers) (msg : Message)
    (fails : Conn → Bool) :
    (notifyClients reg msg fails).1 = reg
    ∧ cancelCalls (notifyClients reg msg fails).2
        = ((listenerSet reg msg.RoomID).filter (fun p => fails p.1)).map Prod.snd
    ∧ (∀ f, Effect.cancel f ∈ (notifyClients reg msg fails).2 ↔
        ∃ c, (c, f) ∈ listenerSet reg msg.RoomID ∧ fails c = true) := by
  have hc : cancelCalls (notifyClients reg msg fails).2
        = ((listenerSet reg msg.RoomID).filter (fun p => fails p.1)).map Prod.snd := by
    rw [notifyClients_trace]
    simp [cancelCalls, cancelCalls_append, cancelCalls_notifyLoop]
  refine ⟨?_, hc, ?_⟩
  · unfold notifyClients
    cases mapLookup msg.RoomID reg with
    | none => rfl
    | some subs => by_cases h : subs.length = 0 <;> simp [h]
  · intro f
    rw [← mem_cancelCalls, hc]
    simp only [List.mem_map, List.mem_filter]
    constructor
    · rintro ⟨⟨c, f'⟩, ⟨hmem, hf⟩, rfl⟩
      exact ⟨c, hmem, hf⟩
    · rintro ⟨c, hmem, hf⟩
      exact ⟨(c, f), ⟨hmem, hf⟩, rfl⟩

/-! ## Unregistering -/

/-- C4: `delete(subscribers[R], c)` removes the entry `(R, c)` and nothing else: every
other `(room, connection)` pair keeps its cancel function (also `c` under another room),
every room key stays, an absent `(R, c)` leaves the registry as it was, and doing it
twice is doing it once. -/
theorem unregister_removes_only_that_entry (reg : Subscribers) (R : String) (c : Conn) :
    (∀ R' c', listenerCancel (unregister R c reg) R' c'
        = if R' = R ∧ c' = c then none else listenerCancel reg R' c')
    ∧ (∀ R', (mapLookup R' (unregister R c reg)).isSome = (mapLookup R' reg).isSome)
    ∧ (listenerCancel reg R c = none → unregister R c reg = reg)
    ∧ unregister R c (unregister R c reg) = unregister R c reg := by
  refine ⟨listenerCancel_unregister reg R c, ?_, ?_, ?_⟩
  · intro R'
    unfold unregister
    cases h : mapLookup R reg with
    | none => rfl
    | some subs =>
      simp only [mapLookup_mapSet]
      by_cases hR : R' = R
      · subst hR; simp [h]
      · simp [hR]
  · intro habs
    unfold unregister
    unfold listenerCancel at habs
    cases h : mapLookup R reg with
    | none => rfl
    | some subs =>
      rw [h] at habs
      simp only [Option.bind] at habs
      show mapSet R (mapDelete c subs) reg = reg
      rw [mapDelete_of_lookup_none c subs habs]
      exact mapSet_of_lookup R subs reg h
  · unfold unregister
    cases h : mapLookup R reg with
    | none => simp [h]
    | some subs =>
      simp only [mapLookup_mapSet, if_true, mapDelete_idem]
      apply mapSet_of_lookup
      simp [mapLookup_mapSet]

/-- Witness of C4: connection 3 is not registered under room `"A"`, and unregistering it
there leaves the sample registry as it was. -/
theorem unregister_removes_only_that_entry_witness :
    listenerCancel sampleRegistry "A" 3 = none
    ∧ unregister "A" 3 sampleRegistry = sampleRegistry :=
  ⟨by decide,
    (unregister_removes_only_that_entry sampleRegistry "A" 3).2.2.1 (by decide)⟩

/-! ## The mutex during a publish -/

/-- C9, as the code has it: `notifyClients` takes the mutex first, releases it last (the
deferred `Unlock`), and every `WriteJSON` happens while the mutex is held; it ranges
over the registry's own set, there is no copy made under the lock. -/
theorem notifyClients_writes_while_locked (reg : Subscribers) (msg : Message)
    (fails : Conn → Bool) :
    (notifyClients reg msg fails).2.head? = some Effect.lock
    ∧ (notifyClients reg msg fails).2.getLast? = some Effect.unlock
    ∧ lockAtWrites false (notifyClients reg msg fails).2
        = List.replicate (listenersFor reg msg.RoomID).length true := by
  refine ⟨?_, getLast_notifyClients reg msg fails, ?_⟩
  · rw [notifyClients_trace]
    rfl
  · rw [notifyClients_trace, listenersFor_eq]
    simp [lockAtWrites, lockAtWrites_notifyLoop, mapKeys]

/-- C9 fails: on the sample registry both writes of a publish to room `"A"` happen with
the mutex held. -/
theorem notifyClients_lock_counterexample :
    (notifyClients sampleRegistry sampleEvent (fun _ => false)).2
        = [Effect.lock, Effect.writeJSON 1 sampleEvent, Effect.writeJSON 2 sampleEvent,
            Effect.unlock]
    ∧ lockAtWrites false (notifyClients sampleRegistry sampleEvent (fun _ => false)).2
        = [true, true] := by
  decide

/-! ## Publishing after a cancellation -/

/-- C3, as the code has it: once the unregistration step of `handleSubscribe` for
`(R, c)` has run, then after any further steps of the server in which no upgrade yields
`c` again, a `notifyClients` call for room `R` makes no write attempt on `c`, and it
returns, its last effect being the release of the mutex. -/
theorem no_write_after_unregistration (reg : Subscribers) (R : String) (c : Conn)
    (steps : List Step) (hfresh : ∀ s ∈ steps, Step.upgradesTo c s = false)
    (msg : Message) (fails : Conn → Bool) (hroom : msg.RoomID = R) :
    c ∉ writeAttempts
        (notifyClients (run (handleSubscribeDone R c reg).1 steps).1 msg fails).2
    ∧ (notifyClients (run (handleSubscribeDone R c reg).1 steps).1 msg fails).2.getLast?
        = some Effect.unlock := by
  constructor
  · rw [writeAttempts_notifyClients, hroom, mem_listenersFor_iff]
    have h0 : listenerCancel (handleSubscribeDone R c reg).1 R c = none := by
      simp [handleSubscribeDone, listenerCancel_unregister]
    simp [run_keeps_unregistered R c steps _ h0 hfresh]
  · exact getLast_notifyClients _ msg fails

/-- Witness of the amended C3: connection 1 leaves room `"A"` of the sample registry,
another publish and another subscription follow, and a publish to `"A"` writes to
connection 2 only. -/
theorem no_write_after_unregistration_witness :
    (∀ s ∈ [Step.publish sampleEvent (fun _ => true),
              Step.subscribe okStore sampleRequest (some 5) 15],
        Step.upgradesTo 1 s = false)
    ∧ sampleEvent.RoomID = "A"
    ∧ 1 ∉ writeAttempts
        (notifyClients (run (handleSubscribeDone "A" 1 sampleRegistry).1
          [Step.publish sampleEvent (fun _ => true),
            Step.subscribe okStore sampleRequest (some 5) 15]).1 sampleEvent (fun _ => false)).2 :=
  ⟨by decide, rfl,
    (no_write_after_unregistration sampleRegistry "A" 1
      [Step.publish sampleEvent (fun _ => true),
        Step.subscribe okStore sampleRequest (some 5) 15] (by decide)
      sampleEvent (fun _ => false) rfl).1⟩

/-- C3 fails between the cancellation and the unregistration: connection 1 subscribes
to `roomA`, a publish whose write fails invokes its cancel function 11, and a second
publish that obtains the mutex before the subscriber's unregistration writes to
connection 1 again. -/
theorem write_after_cancel_counterexample :
    (handleSubscribe okStore sampleRequest (some 1) 11 []).1 = [(roomA, [(1, 11)])]
    ∧ Effect.cancel 11 ∈ (notifyClients [(roomA, [(1, 11)])] roomAEvent (fun _ => true)).2
    ∧ (notifyClients [(roomA, [(1, 11)])] roomAEvent (fun _ => true)).1
        = [(roomA, [(1, 11)])]
    ∧ writeAttempts (notifyClients
          (notifyClients [(roomA, [(1, 11)])] roomAEvent (fun _ => true)).1
          roomAEvent (fun _ => false)).2 = [1] := by
  decide

/-! ## Subscribing to a room that does not exist -/

/-- C8: when the room identifier parses and `GetRoom` reports no rows, `handleSubscribe`
answers `room not found` (status 400) after that one Store call, does not attempt the
upgrade, registers nothing and returns the registry it was given. -/
theorem handleSubscribe_room_not_found (q : Queries) (r : Request) (upgrade : Option Conn)
    (cancel : CancelFunc) (reg : Subscribers) (roomId : UUID)
    (hparse : uuidParse (URLParam r "room_id") = some roomId)
    (hrows : q.GetRoom roomId = Except.error StoreErr.ErrNoRows) :
    handleSubscribe q r upgrade cancel reg
        = (reg, [Effect.store (StoreCall.GetRoom roomId),
            Effect.httpError "room not found" StatusBadRequest], none)
    ∧ (handleSubscribe q r upgrade cancel reg).1 = reg
    ∧ Effect.upgrade ∉ (handleSubscribe q r upgrade cancel reg).2.1
    ∧ httpErrors (handleSubscribe q r upgrade cancel reg).2.1
        = [("room not found", StatusBadRequest)] := by
  have h : handleSubscribe q r upgrade cancel reg
        = (reg, [Effect.store (StoreCall.GetRoom roomId),
            Effect.httpError "room not found" StatusBadRequest], none) := by
    unfold handleSubscribe
    simp only [hparse, hrows]
  rw [h]
  exact ⟨rfl, rfl, by simp, rfl⟩

/-- Witness of C8: a subscription to `roomA` on the sample registry when the Store has
no room, the upgrade being ready to succeed. -/
theorem handleSubscribe_room_not_found_witness :
    uuidParse (URLParam sampleRequest "room_id") = some roomABytes
    ∧ noRoomStore.GetRoom roomABytes = Except.error StoreErr.ErrNoRows
    ∧ (handleSubscribe noRoomStore sampleRequest (some 9) 19 sampleRegistry).1 = sampleRegistry
    ∧ Effect.upgrade ∉ (handleSubscribe noRoomStore sampleRequest (some 9) 19 sampleRegistry).2.1 :=
  ⟨by decide, rfl,
    (handleSubscribe_room_not_found noRoomStore sampleRequest (some 9) 19 sampleRegistry
      roomABytes (by decide) rfl).2.1,
    (handleSubscribe_room_not_found noRoomStore sampleRequest (some 9) 19 sampleRegistry
      roomABytes (by decide) rfl).2.2.1⟩

/-! ## Invalid write requests -/

theorem URLParam_room_id (r : Request) : URLParam r "room_id" = r.room_id := by
  simp [URLParam]

theorem URLParam_message_id (r : Request) : URLParam r "message_id" = r.message_id := by
  simp [URLParam]

theorem handleCreateRoom_empty (q : Queries) (r : Request) (h : r.body = some "") :
    handleCreateRoom q r = [Effect.httpError "invalid json" StatusBadRequest] := by
  simp [handleCreateRoom, h]

theorem handleCreateRoomMessages_bad_room (q : Queries) (r : Request)
    (h : uuidParse r.room_id = none) :
    handleCreateRoomMessages q r = [Effect.httpError "invalid room id" StatusBadRequest] := by
  simp [handleCreateRoomMessages, URLParam_room_id, h]

theorem handleCreateRoomMessages_empty (q : Queries) (r : Request) (roomId : UUID)
    (hroom : uuidParse r.room_id = some roomId) (h : r.body = some "") :
    handleCreateRoomMessages q r
        = [Effect.store (StoreCall.GetRoom roomId),
            Effect.httpError "room not found" StatusBadRequest]
    ∨ handleCreateRoomMessages q r
        = [Effect.store (StoreCall.GetRoom roomId),
            Effect.httpError "something went wrong" StatusInternalServerError]
    ∨ handleCreateRoomMessages q r
        = [Effect.store (StoreCall.GetRoom roomId),
            Effect.httpError "invalid json" StatusBadRequest] := by
  unfold handleCreateRoomMessages
  simp only [URLParam_room_id, hroom, h]
  cases hq : q.GetRoom roomId with
  | error e => cases e <;> simp
  | ok u => simp

theorem handleReactToMessage_bad_id (q : Queries) (r : Request)
    (h : uuidParse r.room_id = none ∨ uuidParse r.message_id = none) :
    handleReactToMessage q r = [Effect.httpError "Invalid room id" StatusBadRequest]
    ∨ handleReactToMessage q r = [Effect.httpError "Invalid message id" StatusBadRequest] := by
  unfold handleReactToMessage
  simp only [URLParam_room_id, URLParam_message_id]
  cases hr : uuidParse r.room_id with
  | none => exact Or.inl rfl
  | some a =>
    cases hm : uuidParse r.message_id with
    | none => exact Or.inr rfl
    | some b => simp [hr, hm] at h

theorem handleRemoveMessageReaction_bad_id (q : Queries) (r : Request)
    (h : uuidParse r.room_id = none ∨ uuidParse r.message_id = none) :
    handleRemoveMessageReaction q r = [Effect.httpError "Invalid room id" StatusBadRequest]
    ∨ handleRemoveMessageReaction q r
        = [Effect.httpError "Invalid message id" StatusBadRequest] := by
  unfold handleRemoveMessageReaction
  simp only [URLParam_room_id, URLParam_message_id]
  cases hr : uuidParse r.room_id with
  | none => exact Or.inl rfl
  | some a =>
    cases hm : uuidParse r.message_id with
    | none => exact Or.inr rfl
    | some b => simp [hr, hm] at h

theorem handleMarkMessageAsAnswered_bad_id (q : Queries) (r : Request)
    (h : uuidParse r.room_id = none ∨ uuidParse r.message_id = none) :
    handleMarkMessageAsAnswered q r = [Effect.httpError "Invalid room id" StatusBadRequest]
    ∨ handleMarkMessageAsAnswered q r
        = [Effect.httpError "Invalid message id" StatusBadRequest] := by
  unfold handleMarkMessageAsAnswered getIdParam
  simp only [URLParam_room_id, URLParam_message_id]
  cases hr : uuidParse r.room_id with
  | none => exact Or.inl rfl
  | some a =>
    cases hm : uuidParse r.message_id with
    | none => exact Or.inr rfl
    | some b => simp [hr, hm] at h

/-- C7, as the code has it: on an invalid write request the handler answers with an
error, publishes nothing and makes no Store write; it makes no Store call at all, except
that `handleCreateRoomMessages`, given a well-formed room identifier, has already called
`GetRoom` when it finds the `message` field empty. -/
theorem invalid_write_request_rejected (h : WriteHandler) (q : Queries) (r : Request)
    (hinv : WriteHandler.invalidRequest h r = true) :
    httpErrors (WriteHandler.trace h q r) ≠ []
    ∧ published (WriteHandler.trace h q r) = []
    ∧ (∀ call ∈ storeCalls (WriteHandler.trace h q r), StoreCall.isRead call = true)
    ∧ ((h ≠ WriteHandler.createRoomMessages ∨ uuidParse r.room_id = none) →
        storeCalls (WriteHandler.trace h q r) = []) := by
  cases h with
  | createRoom =>
    have hb : r.body = some "" := by simpa [WriteHandler.invalidRequest] using hinv
    simp [WriteHandler.trace, handleCreateRoom_empty q r hb, httpErrors, published, storeCalls]
  | createRoomMessages =>
    cases hr : uuidParse r.room_id with
    | none =>
      simp [WriteHandler.trace, handleCreateRoomMessages_bad_room q r hr, httpErrors, published,
        storeCalls]
    | some roomId =>
      have hb : r.body = some "" := by simpa [WriteHandler.invalidRequest, hr] using hinv
      rcases handleCreateRoomMessages_empty q r roomId hr hb with e | e | e <;>
        simp [WriteHandler.trace, e, httpErrors, published, storeCalls, StoreCall.isRead]
  | reactToMessage =>
    have hb : uuidParse r.room_id = none ∨ uuidParse r.message_id = none := by
      simpa [WriteHandler.invalidRequest] using hinv
    rcases handleReactToMessage_bad_id q r hb with e | e <;>
      simp [WriteHandler.trace, e, httpErrors, published, storeCalls]
  | removeMessageReaction =>
    have hb : uuidParse r.room_id = none ∨ uuidParse r.message_id = none := by
      simpa [WriteHandler.invalidRequest] using hinv
    rcases handleRemoveMessageReaction_bad_id q r hb with e | e <;>
      simp [WriteHandler.trace, e, httpErrors, published, storeCalls]
  | markMessageAsAnswered =>
    have hb : uuidParse r.room_id = none ∨ uuidParse r.message_id = none := by
      simpa [WriteHandler.invalidRequest] using hinv
    rcases handleMarkMessageAsAnswered_bad_id q r hb with e | e <;>
      simp [WriteHandler.trace, e, httpErrors, published, storeCalls]

/-- Witness of the amended C7: a create-message request with an empty `message`. -/
theorem invalid_write_request_rejected_witness :
    WriteHandler.invalidRequest WriteHandler.createRoomMessages emptyMessageRequest = true
    ∧ httpErrors (WriteHandler.trace WriteHandler.createRoomMessages okStore emptyMessageRequest)
        ≠ []
    ∧ published (WriteHandler.trace WriteHandler.createRoomMessages okStore emptyMessageRequest)
        = [] :=
  ⟨by decide,
    (invalid_write_request_rejected WriteHandler.createRoomMessages okStore emptyMessageRequest
      (by decide)).1,
    (invalid_write_request_rejected WriteHandler.createRoomMessages okStore emptyMessageRequest
      (by decide)).2.1⟩

/-- C7 fails: a create-message request with a well-formed room identifier and an empty
`message` is invalid, and the handler has called the Store (`GetRoom`) before it
answers `invalid json`. -/
theorem empty_message_store_call_counterexample :
    WriteHandler.invalidRequest WriteHandler.createRoomMessages emptyMessageRequest = true
    ∧ handleCreateRoomMessages okStore emptyMessageRequest
        = [Effect.store (StoreCall.GetRoom roomABytes),
            Effect.httpError "invalid json" StatusBadRequest]
    ∧ storeCalls (handleCreateRoomMessages okStore emptyMessageRequest)
        = [StoreCall.GetRoom roomABytes] := by
  decide

/-! ## Store failures and the mark-answered handler -/

/-- The three siblings of `handleMarkMessageAsAnswered` answer with an error and publish
nothing when their Store write fails. -/
theorem store_failure_not_published (q : Queries) (r : Request) (roomId messageId : UUID)
    (e : StoreErr) (hroom : uuidParse r.room_id = some roomId)
    (hmsg : uuidParse r.message_id = some messageId) :
    (q.ReactToMessage messageId = Except.error e →
      handleReactToMessage q r
        = [Effect.store (StoreCall.ReactToMessage messageId),
            Effect.httpError "Something went wrong" StatusInternalServerError])
    ∧ (q.RemoveReactionFromMessage messageId = Except.error e →
      handleRemoveMessageReaction q r
        = [Effect.store (StoreCall.RemoveReactionFromMessage messageId),
            Effect.httpError "Something went wrong" StatusInternalServerError])
    ∧ (∀ text, q.GetRoom roomId = Except.ok () → r.body = some text → text ≠ "" →
      q.InsertMessage roomId text = Except.error e →
      handleCreateRoomMessages q r
        = [Effect.store (StoreCall.GetRoom roomId),
            Effect.store (StoreCall.InsertMessage roomId text),
            Effect.httpError "something went wrong" StatusInternalServerError]) := by
  refine ⟨?_, ?_, ?_⟩
  · intro hq
    simp [handleReactToMessage, URLParam_room_id, URLParam_message_id, hroom, hmsg, hq]
  · intro hq
    simp [handleRemoveMessageReaction, URLParam_room_id, URLParam_message_id, hroom, hmsg, hq]
  · intro text hg hb hne hq
    have hlen : ¬ (text.length ≤ 0 ∨ text = "") := by
      intro h
      rcases h with h | h
      · apply hne
        have h0 : text.length = 0 := Nat.le_zero.mp h
        exact String.ext (List.length_eq_zero.mp h0)
      · exact hne h
    simp only [handleCreateRoomMessages, URLParam_room_id, hroom, hg, hb, hq, if_neg hlen]

/-- C5 fails in `handleMarkMessageAsAnswered`: with a Store whose mark-answered call
fails, the handler answers with no error and still publishes the event. -/
theorem markAnswered_failure_still_published :
    failingStore.MarkMessageAsAwnsered uuidNil = Except.error StoreErr.other
    ∧ handleMarkMessageAsAnswered failingStore sampleRequest
        = [Effect.store (StoreCall.MarkMessageAsAwnsered uuidNil),
            Effect.goNotifyClients
              { Kind := MessageKindMessageReaction
                RoomID := zeroText
                Value := MessageValue.MessageMessageReacted zeroText }]
    ∧ httpErrors (handleMarkMessageAsAnswered failingStore sampleRequest) = []
    ∧ (published (handleMarkMessageAsAnswered failingStore sampleRequest)).length = 1 :=
  ⟨rfl, by decide, by decide, by decide⟩

/-- C6 fails: for a request whose two identifiers are well-formed and not zero,
`handleMarkMessageAsAnswered` calls the Store with the zero UUID and publishes an event
whose `RoomID` and `value.id` are the zero UUID's text. -/
theorem markAnswered_uses_zero_identifiers :
    uuidParse sampleRequest.room_id = some roomABytes
    ∧ uuidParse sampleRequest.message_id = some messageBytes
    ∧ storeCalls (handleMarkMessageAsAnswered okStore sampleRequest)
        = [StoreCall.MarkMessageAsAwnsered uuidNil]
    ∧ messageBytes ≠ uuidNil
    ∧ published (handleMarkMessageAsAnswered okStore sampleRequest)
        = [{ Kind := MessageKindMessageReaction
             RoomID := zeroText
             Value := MessageValue.MessageMessageReacted zeroText }]
    ∧ zeroText ≠ sampleRequest.room_id
    ∧ zeroText ≠ uuidString roomABytes := by
  decide

/-! ## The registry key of a room -/

/-- C10 fails: a listener that subscribed with the upper-case spelling of a room
identifier is registered under that spelling, while a reaction sent with the very same
spelling is published under the lower-case text of the parsed UUID, and a message
created with the lower-case spelling under that one; in both cases `notifyClients`
finds no listener and writes to nobody. -/
theorem upper_case_subscriber_not_found :
    uuidParse roomAUpper = uuidParse roomA
    ∧ uuidParse roomAUpper = some roomABytes
    ∧ (handleSubscribe okStore upperRequest (some 1) 11 []).1 = [(roomAUpper, [(1, 11)])]
    ∧ published (handleReactToMessage okStore upperRequest) = [roomAEvent]
    ∧ published (handleRemoveMessageReaction okStore upperRequest) = [roomAEvent]
    ∧ listenersFor [(roomAUpper, [(1, 11)])] roomAEvent.RoomID = []
    ∧ writeAttempts (notifyClients [(roomAUpper, [(1, 11)])] roomAEvent (fun _ => false)).2 = []
    ∧ (published (handleCreateRoomMessages okStore sampleRequest)).map Message.RoomID = [roomA]
    ∧ listenersFor [(roomAUpper, [(1, 11)])] roomA = [] := by
  decide

/-! ## Checks of the UUID model -/

theorem uuidParse_samples :
    uuidParse roomA = some roomABytes
    ∧ uuidParse roomAUpper = some roomABytes
    ∧ uuidString roomABytes = roomA
    ∧ uuidParse "6ba7b8109dad11d180b400c04fd430c8" = some roomABytes
    ∧ uuidParse "urn:uuid:6ba7b810-9dad-11d1-80b4-00c04fd430c8" = some roomABytes
    ∧ uuidParse "abc" = none
    ∧ uuidParse "6ba7b810-9dad-11d1-80b4-00c04fd430cg" = none
    ∧ uuidString uuidNil = zeroText := by
  decide

end Api
